import Mathlib

/-!
A shallow embedding of the `ghdownloader` Go package (package `ghdownloader`,
file with `Downloader`, `DownloadLatestReleases`, `parseUserRepo`,
`downloadLatestRelease`, `downloadAsset`).

Modelling conventions:
* Go strings are `List Char` (`GoStr`); Go `strings.Split` on the one-character
  separator `/` is `splitOnChar`, `strings.Join` is `goJoin`,
  `strings.Contains` is `hasSubstr`.
* The filesystem is an association list from paths to file contents;
  `os.Create` truncates/creates (empty content), `io.Copy` writes the body.
  `filepath.Join dir name` is `dir ++ "/" ++ name`.
* The network is an oracle `Network : HTTPRequest → Except GoStr HTTPResponse`
  (`.error` = transport failure).  The custom client with
  `CheckRedirect = ErrUseLastResponse` never follows redirects, so each
  `client.Do` is one oracle call returning the raw (possibly 302) response.
* The GitHub API client's `Repositories.GetLatestRelease` is an oracle
  `ReleaseAPI : GoStr → GoStr → Except GoStr Release`.
* The goroutine fan-out with `sync.WaitGroup` and the buffered error channel
  are modelled by running the per-repository tasks sequentially in input
  order and collecting their error messages in that order; the shared
  `binPaths` slice (mutated under `d.mu`) is a field of the explicit state.
* `fmt.Errorf` messages are reproduced literally as strings.
-/

namespace GHDownloader

/-- Go strings, as lists of characters. -/
abbrev GoStr := List Char

/-- `strings.Split s [c]` for a one-character separator: the substrings of `s`
between occurrences of `c` (Go returns `[""]` for the empty string). -/
def splitOnChar (c : Char) : GoStr → List GoStr
  | [] => [[]]
  | x :: xs =>
    if x = c then
      [] :: splitOnChar c xs
    else
      match splitOnChar c xs with
      | [] => [[x]]
      | y :: ys => (x :: y) :: ys

/-- Interleave the separator character back between the pieces
(the inverse direction of `splitOnChar`). -/
def joinChar (c : Char) : List GoStr → GoStr
  | [] => []
  | [x] => x
  | x :: y :: ys => x ++ c :: joinChar c (y :: ys)

/-- Number of occurrences of a character in a string. -/
def countChar (c : Char) : GoStr → Nat
  | [] => 0
  | x :: xs => (if x = c then 1 else 0) + countChar c xs

/-- `strings.Join elems sep`. -/
def goJoin (sep : GoStr) : List GoStr → GoStr
  | [] => []
  | [x] => x
  | x :: y :: ys => x ++ sep ++ goJoin sep (y :: ys)

/-- Whether `pre` is a leading segment of `s` (helper for `hasSubstr`). -/
def startsWith : GoStr → GoStr → Bool
  | _, [] => true
  | [], _ :: _ => false
  | a :: s, b :: t => a = b && startsWith s t

/-- `strings.Contains s sub`: `sub` occurs contiguously in `s`. -/
def hasSubstr : GoStr → GoStr → Bool
  | [], sub => sub.isEmpty
  | a :: s, sub => startsWith (a :: s) sub || hasSubstr s sub

/-- `parseUserRepo` — splits `"owner/repo"` into owner and repo.
Go checks only `len(parts) != 2` after `strings.Split(userRepo, "/")`. -/
def parseUserRepo (userRepo : GoStr) : Except GoStr (GoStr × GoStr) :=
  match splitOnChar '/' userRepo with
  | [a, b] => .ok (a, b)
  | _ => .error "expected format 'owner/repo'".toList

/-- An outgoing HTTP request (`http.NewRequest` plus the headers set on it). -/
structure HTTPRequest where
  method : GoStr
  url : GoStr
  headers : List (GoStr × GoStr)
deriving DecidableEq, Repr

/-- An HTTP response: numeric `StatusCode`, display `Status`, headers, body. -/
structure HTTPResponse where
  statusCode : Nat
  status : GoStr
  headers : List (GoStr × GoStr)
  body : GoStr
deriving DecidableEq, Repr

/-- `Header.Get`: the first value stored under the key (empty if absent). -/
def headerGet (hs : List (GoStr × GoStr)) (k : GoStr) : GoStr :=
  match hs with
  | [] => []
  | (k', v) :: rest => if k' = k then v else headerGet rest k

/-- The network oracle: what `client.Do req` returns.  The downloader's
custom client never follows redirects (`ErrUseLastResponse`), so one call
yields the raw response; `.error` models a transport error. -/
abbrev Network := HTTPRequest → Except GoStr HTTPResponse

/-- `github.ReleaseAsset`, the fields the downloader reads:
`GetName` and `GetURL` (the asset's API URL). -/
structure ReleaseAsset where
  name : GoStr
  url : GoStr
deriving DecidableEq, Repr

/-- `github.RepositoryRelease`, the fields the downloader reads:
`GetTagName` (empty when absent), `GetDraft`, `GetPrerelease`, `Assets`. -/
structure Release where
  tagName : GoStr
  draft : Bool
  prerelease : Bool
  assets : List ReleaseAsset
deriving DecidableEq, Repr

/-- The GitHub client's `Repositories.GetLatestRelease owner repo` oracle. -/
abbrev ReleaseAPI := GoStr → GoStr → Except GoStr Release

/-- The local filesystem: an association list path ↦ file content. -/
abbrev FS := List (GoStr × GoStr)

/-- Content of the file at a path, `none` when no file exists there
(`os.Stat` succeeds exactly when this is `some`). -/
def fsFind : FS → GoStr → Option GoStr
  | [], _ => none
  | (q, d) :: rest, p => if q = p then some d else fsFind rest p

/-- Write content to a path, creating the file or replacing its content. -/
def fsWrite : FS → GoStr → GoStr → FS
  | [], p, c => [(p, c)]
  | (q, d) :: rest, p, c => if q = p then (p, c) :: rest else (q, d) :: fsWrite rest p c

/-- The downloader's mutable state: the filesystem, the shared `binPaths`
slice (appended under `d.mu`), and the log of network requests issued. -/
structure DState where
  fs : FS
  binPaths : List GoStr
  requests : List HTTPRequest
deriving DecidableEq, Repr

/-- The first request of `downloadAsset`: authenticated GET of the asset API
URL with `Accept: application/octet-stream` (Authorization only when a token
is configured). -/
def firstRequest (token apiURL : GoStr) : HTTPRequest :=
  { method := "GET".toList
    url := apiURL
    headers :=
      (if token ≠ [] then [("Authorization".toList, "token ".toList ++ token)] else [])
        ++ [("Accept".toList, "application/octet-stream".toList)] }

/-- The second request of `downloadAsset`: GET of the redirect URL with
`Accept: application/octet-stream`. -/
def secondRequest (redirectURL : GoStr) : HTTPRequest :=
  { method := "GET".toList
    url := redirectURL
    headers := [("Accept".toList, "application/octet-stream".toList)] }

/-- The fetch path of `downloadAsset` (everything after the skip check):
`os.Create` (truncating the file to empty), first request to the asset API
URL expecting 302, `Location` extraction, second request to the redirect
URL expecting 200, `io.Copy` of the body into the file, append of the path
to `binPaths`. -/
def downloadAssetFetch (net : Network) (token : GoStr) (asset : ReleaseAsset)
    (filePath : GoStr) (s : DState) : DState × Option GoStr :=
  let s1 : DState := { s with fs := fsWrite s.fs filePath [] }
  let req := firstRequest token asset.url
  let s2 : DState := { s1 with requests := s1.requests ++ [req] }
  match net req with
  | .error e => (s2, some ("failed to get asset redirect URL: ".toList ++ e))
  | .ok resp =>
    if resp.statusCode ≠ 302 then
      (s2, some ("unexpected status code (expected 302 Found): got ".toList
                  ++ resp.status))
    else
      let redirectURL := headerGet resp.headers "Location".toList
      if redirectURL = [] then
        (s2, some ("no redirect location found for asset '".toList
                    ++ asset.name ++ "'".toList))
      else
        let req2 := secondRequest redirectURL
        let s3 : DState := { s2 with requests := s2.requests ++ [req2] }
        match net req2 with
        | .error e =>
          (s3, some ("failed to download asset from redirect URL: ".toList ++ e))
        | .ok resp2 =>
          if resp2.statusCode ≠ 200 then
            (s3, some ("bad status downloading asset from redirect URL: ".toList
                        ++ resp2.status))
          else
            let s4 : DState := { s3 with fs := fsWrite s3.fs filePath resp2.body }
            ({ s4 with binPaths := s4.binPaths ++ [filePath] }, none)

/-- `downloadAsset` — downloads a single asset into `versionDir`.
Returns the new state and `none` on success or `some msg` on failure
(the Go `error`).  Mirrors the source: empty-API-URL check; skip (recording
the existing path) when not forced and the file exists; otherwise the fetch
path `downloadAssetFetch`. -/
def downloadAsset (net : Network) (token : GoStr) (asset : ReleaseAsset)
    (versionDir : GoStr) (forceDownload : Bool) (s : DState) :
    DState × Option GoStr :=
  if asset.url = [] then
    (s, some ("asset '".toList ++ asset.name ++ "' does not have an API URL".toList))
  else
    let filePath := versionDir ++ '/' :: asset.name
    if forceDownload = false ∧ (fsFind s.fs filePath).isSome then
      ({ s with binPaths := s.binPaths ++ [filePath] }, none)
    else
      downloadAssetFetch net token asset filePath s

/-- The tag/force computation of `downloadLatestRelease`: if the tag is
empty, call it `latest` and force re-download. -/
def dirTagForce (tag : GoStr) : GoStr × Bool :=
  if tag = [] then ("latest".toList, true) else (tag, false)

/-- One iteration of the asset loop in `downloadLatestRelease`: skip the
asset when a non-empty match filter does not occur in its name, otherwise
run `downloadAsset`; a failure is only printed as a warning, so the error
component is dropped and the loop continues. -/
def assetStep (net : Network) (token matchFilter versionDir : GoStr)
    (forceDownload : Bool) (s : DState) (asset : ReleaseAsset) : DState :=
  if matchFilter ≠ [] ∧ hasSubstr asset.name matchFilter = false then s
  else (downloadAsset net token asset versionDir forceDownload s).1

/-- `downloadLatestRelease` — fetches the latest release of `owner/repo` and
downloads its assets.  Resolver-level failures (fetch error, draft or
pre-release, zero assets) return an error; asset failures do not. -/
def downloadLatestRelease (net : Network) (api : ReleaseAPI)
    (token matchFilter destDir owner repo : GoStr) (s : DState) :
    DState × Option GoStr :=
  match api owner repo with
  | .error e => (s, some ("error fetching latest release: ".toList ++ e))
  | .ok release =>
    if release.draft = true ∨ release.prerelease = true then
      (s, some "latest release is draft or pre-release".toList)
    else if release.assets.length = 0 then
      (s, some "no assets found in the latest release".toList)
    else
      let tf := dirTagForce release.tagName
      let dirName := repo ++ '-' :: tf.1
      let versionDir := destDir ++ '/' :: dirName
      (release.assets.foldl (assetStep net token matchFilter versionDir tf.2) s, none)

/-- The per-repository error message wrapped by `DownloadLatestReleases`
when a task's `downloadLatestRelease` fails. -/
def repoErrMsg (owner repo e : GoStr) : GoStr :=
  "failed to download ".toList ++ owner ++ '/' :: repo ++ ": ".toList ++ e

/-- The fail-fast error message of `DownloadLatestReleases` for a malformed
`owner/repo` identifier. -/
def parseErrMsg (userRepo e : GoStr) : GoStr :=
  "invalid user/repo format '".toList ++ userRepo ++ "': ".toList ++ e

/-- The loop of `DownloadLatestReleases`: parse each identifier (a parse
failure returns `.error` immediately — fail-fast), run the repository's
task, and collect the per-repository error messages (the buffered error
channel), in input order. -/
def runRepos (net : Network) (api : ReleaseAPI)
    (token matchFilter destDir : GoStr) :
    List GoStr → DState → DState × Except GoStr (List GoStr)
  | [], s => (s, .ok [])
  | ur :: rest, s =>
    match parseUserRepo ur with
    | .error e => (s, .error (parseErrMsg ur e))
    | .ok (owner, repo) =>
      let p := downloadLatestRelease net api token matchFilter destDir owner repo s
      match runRepos net api token matchFilter destDir rest p.1 with
      | (s', .error e) => (s', .error e)
      | (s', .ok errs) =>
        (s', .ok ((match p.2 with
                   | some e => [repoErrMsg owner repo e]
                   | none => []) ++ errs))

/-- `DownloadLatestReleases` — the fan-out orchestrator.  Returns the final
state, the returned path list, and the returned error (`none` = nil error).
A malformed identifier returns `(nil, error)` at once; otherwise the
collected per-repository errors, when any, are joined by newlines into one
combined error, returned alongside the accumulated `binPaths`. -/
def DownloadLatestReleases (net : Network) (api : ReleaseAPI)
    (token matchFilter destDir : GoStr) (userRepos : List GoStr) (s : DState) :
    DState × List GoStr × Option GoStr :=
  match runRepos net api token matchFilter destDir userRepos s with
  | (s', .error e) => (s', [], some e)
  | (s', .ok []) => (s', s'.binPaths, none)
  | (s', .ok (e :: es)) =>
    (s', s'.binPaths,
      some ("errors occurred:\n".toList ++ goJoin ['\n'] (e :: es)))

end GHDownloader

namespace GHDownloader

/-! ### Basic lemmas about the string operations and the filesystem -/

theorem splitOnChar_ne_nil (c : Char) : ∀ s : GoStr, splitOnChar c s ≠ []
  | [] => by simp [splitOnChar]
  | x :: xs => by
    simp only [splitOnChar]
    split
    · simp
    · split
      · simp
      · simp

theorem length_splitOnChar (c : Char) :
    ∀ s : GoStr, (splitOnChar c s).length = countChar c s + 1
  | [] => by simp [splitOnChar, countChar]
  | x :: xs => by
    simp only [splitOnChar, countChar]
    split
    · simp [length_splitOnChar c xs]
      omega
    · rename_i hx
      cases hsp : splitOnChar c xs with
      | nil => exact absurd hsp (splitOnChar_ne_nil c xs)
      | cons y ys =>
        have := length_splitOnChar c xs
        rw [hsp] at this
        simp at this
        simp [hx, this]

theorem joinChar_splitOnChar (c : Char) :
    ∀ s : GoStr, joinChar c (splitOnChar c s) = s
  | [] => by simp [splitOnChar, joinChar]
  | x :: xs => by
    simp only [splitOnChar]
    split
    · rename_i hx
      cases hsp : splitOnChar c xs with
      | nil => exact absurd hsp (splitOnChar_ne_nil c xs)
      | cons y ys =>
        have ih := joinChar_splitOnChar c xs
        rw [hsp] at ih
        simp [joinChar, hx, ih]
    · cases hsp : splitOnChar c xs with
      | nil => exact absurd hsp (splitOnChar_ne_nil c xs)
      | cons y ys =>
        have ih := joinChar_splitOnChar c xs
        rw [hsp] at ih
        cases ys with
        | nil => simpa [joinChar] using congrArg (x :: ·) ih
        | cons z zs =>
          simp only [joinChar] at ih ⊢
          simp [← ih]

theorem goJoin_infix (sep : GoStr) :
    ∀ (errs : List GoStr) (e : GoStr), e ∈ errs →
      ∃ l r, goJoin sep errs = l ++ e ++ r
  | [], e, he => absurd he (List.not_mem_nil e)
  | [x], e, he => by
    simp at he
    exact ⟨[], [], by simp [goJoin, he]⟩
  | x :: y :: ys, e, he => by
    rcases List.mem_cons.mp he with h | h
    · exact ⟨[], sep ++ goJoin sep (y :: ys), by simp [goJoin, h]⟩
    · obtain ⟨l, r, hlr⟩ := goJoin_infix sep (y :: ys) e h
      exact ⟨x ++ sep ++ l, r, by simp [goJoin, hlr]⟩

theorem fsFind_fsWrite (p c : GoStr) :
    ∀ fs : FS, fsFind (fsWrite fs p c) p = some c
  | [] => by simp [fsFind, fsWrite]
  | (q, d) :: rest => by
    simp only [fsWrite]
    split
    · simp [fsFind]
    · rename_i hq
      simp [fsFind, hq, fsFind_fsWrite p c rest]

theorem fsWrite_fsWrite (p c c' : GoStr) :
    ∀ fs : FS, fsWrite (fsWrite fs p c) p c' = fsWrite fs p c'
  | [] => by simp [fsWrite]
  | (q, d) :: rest => by
    simp only [fsWrite]
    split
    · simp [fsWrite]
    · rename_i hq
      simp [fsWrite, hq, fsWrite_fsWrite p c c' rest]

end GHDownloader

namespace GHDownloader

/-- Helper: `parseUserRepo` returns a pair exactly when the split has
exactly two segments, and then returns those segments. -/
theorem parseUserRepo_ok_iff (s a b : GoStr) :
    parseUserRepo s = .ok (a, b) ↔ splitOnChar '/' s = [a, b] := by
  simp only [parseUserRepo]
  cases hsp : splitOnChar '/' s with
  | nil => exact absurd hsp (splitOnChar_ne_nil '/' s)
  | cons x t =>
    cases t with
    | nil => simp
    | cons y u =>
      cases u with
      | nil =>
        constructor
        · intro h
          injection h with h
          rw [Prod.mk.injEq] at h
          simp [h.1, h.2]
        · intro h
          simp at h
          simp [h.1, h.2]
      | cons z v => simp

/-- Helper: `parseUserRepo` fails exactly when the split does not have
exactly two segments. -/
theorem parseUserRepo_error_iff (s : GoStr) :
    parseUserRepo s = .error "expected format 'owner/repo'".toList ↔
      (splitOnChar '/' s).length ≠ 2 := by
  simp only [parseUserRepo]
  cases hsp : splitOnChar '/' s with
  | nil => exact absurd hsp (splitOnChar_ne_nil '/' s)
  | cons x t =>
    cases t with
    | nil => simp
    | cons y u =>
      cases u with
      | nil => simp
      | cons z v => simp

end GHDownloader

namespace GHDownloader

/-- C4 counterexample: the claim says any string with a trailing `/` (an
empty repo segment) is rejected, but `parseUserRepo` only checks that the
split has exactly two parts, so `"a/"` is accepted with an empty repo. -/
theorem parseUserRepo_accepts_trailing_slash :
    parseUserRepo "a/".toList = .ok ("a".toList, []) := rfl

/-- C4 (amended): `parseUserRepo` succeeds iff splitting on `/` yields
exactly two segments — equivalently, iff the string contains exactly one
`/` — the segments may be empty; on success it returns the two segments as
owner and repo, and otherwise it fails with the invalid-format error. -/
theorem parseUserRepo_exactly_two_segments (s : GoStr) :
    ((∃ a b, parseUserRepo s = .ok (a, b)) ↔ countChar '/' s = 1) ∧
    (∀ a b, parseUserRepo s = .ok (a, b) → splitOnChar '/' s = [a, b]) ∧
    (countChar '/' s ≠ 1 →
      parseUserRepo s = .error "expected format 'owner/repo'".toList) := by
  have hlen := length_splitOnChar '/' s
  refine ⟨⟨?_, ?_⟩, ?_, ?_⟩
  · rintro ⟨a, b, h⟩
    rw [parseUserRepo_ok_iff] at h
    rw [h] at hlen
    simp at hlen
    omega
  · intro hc
    have h2 : (splitOnChar '/' s).length = 2 := by omega
    obtain ⟨a, b, hab⟩ := List.length_eq_two.mp h2
    exact ⟨a, b, (parseUserRepo_ok_iff s a b).mpr hab⟩
  · intro a b h
    exact (parseUserRepo_ok_iff s a b).mp h
  · intro hc
    rw [parseUserRepo_error_iff]
    omega

/-- C9: `parseUserRepo` is a pure function of its input (it is a Lean
function), and whenever it succeeds with `(owner, repo)`, concatenating
owner, `/`, repo reproduces the input exactly. -/
theorem parseUserRepo_roundtrip (s a b : GoStr)
    (h : parseUserRepo s = .ok (a, b)) : a ++ '/' :: b = s := by
  have hsp := (parseUserRepo_ok_iff s a b).mp h
  have hj := joinChar_splitOnChar '/' s
  rw [hsp] at hj
  simpa [joinChar] using hj

/-- C9 witness: the round trip at the concrete input `"x/y"`. -/
theorem parseUserRepo_roundtrip_witness :
    "x".toList ++ '/' :: "y".toList = "x/y".toList :=
  parseUserRepo_roundtrip "x/y".toList "x".toList "y".toList rfl

/-- C10: for an asset whose API URL is empty, `downloadAsset` fails
immediately with the no-API-URL error and returns the state unchanged: no
existence check consequence, no file creation, no network request, and the
shared result list untouched. -/
theorem downloadAsset_empty_api_url (net : Network) (token : GoStr)
    (asset : ReleaseAsset) (versionDir : GoStr) (forceDownload : Bool)
    (s : DState) (h : asset.url = []) :
    downloadAsset net token asset versionDir forceDownload s =
      (s, some ("asset '".toList ++ asset.name
                 ++ "' does not have an API URL".toList)) := by
  simp [downloadAsset, h]

/-- C10 witness: a concrete asset with an empty API URL. -/
theorem downloadAsset_empty_api_url_witness :
    downloadAsset (fun _ => .error "unreachable".toList) "tok".toList
        { name := "a1".toList, url := [] } "dl".toList false
        { fs := [], binPaths := [], requests := [] } =
      ({ fs := [], binPaths := [], requests := [] },
        some ("asset '".toList ++ "a1".toList
               ++ "' does not have an API URL".toList)) :=
  downloadAsset_empty_api_url _ _ _ _ _ _ rfl

end GHDownloader

namespace GHDownloader

/-- A concrete release API for the witnesses: `u/a` and `u/c` resolve to
tagged releases with one asset each, `u/b` resolves to a draft release. -/
def apiEx : ReleaseAPI := fun owner repo =>
  if owner = "u".toList ∧ repo = "a".toList then
    .ok { tagName := "v1".toList, draft := false, prerelease := false,
          assets := [{ name := "a1".toList, url := "api/a1".toList }] }
  else if owner = "u".toList ∧ repo = "b".toList then
    .ok { tagName := "v2".toList, draft := true, prerelease := false,
          assets := [{ name := "b1".toList, url := "api/b1".toList }] }
  else if owner = "u".toList ∧ repo = "c".toList then
    .ok { tagName := "v3".toList, draft := false, prerelease := false,
          assets := [{ name := "c1".toList, url := "api/c1".toList }] }
  else .error "not found".toList

/-- A concrete network for the witnesses: the asset API URLs answer 302
with a `Location`, the CDN URLs answer 200 with a body. -/
def netEx : Network := fun req =>
  if req.url = "api/a1".toList then
    .ok { statusCode := 302, status := "302 Found".toList,
          headers := [("Location".toList, "cdn/a1".toList)], body := [] }
  else if req.url = "cdn/a1".toList then
    .ok { statusCode := 200, status := "200 OK".toList, headers := [],
          body := "AAA".toList }
  else if req.url = "api/c1".toList then
    .ok { statusCode := 302, status := "302 Found".toList,
          headers := [("Location".toList, "cdn/c1".toList)], body := [] }
  else if req.url = "cdn/c1".toList then
    .ok { statusCode := 200, status := "200 OK".toList, headers := [],
          body := "CCC".toList }
  else .error "no route".toList

/-- The empty starting state for the witnesses. -/
def st0 : DState := { fs := [], binPaths := [], requests := [] }

/-- C3: for a successfully resolved release (fetch succeeded, not draft,
not prerelease, at least one asset): if the tag is empty, the
per-repository subdirectory is `<repo>-latest` and the forceDownload flag
passed to the asset fetcher is `true`; if the tag is a non-empty `T`, the
subdirectory is `<repo>-T` and forceDownload is `false`. -/
theorem downloadLatestRelease_tag_dir_force (net : Network) (api : ReleaseAPI)
    (token matchFilter destDir owner repo : GoStr) (s : DState) (rel : Release)
    (hapi : api owner repo = .ok rel) (hd : rel.draft = false)
    (hp : rel.prerelease = false) (hne : rel.assets ≠ []) :
    (rel.tagName = [] →
      downloadLatestRelease net api token matchFilter destDir owner repo s =
        (rel.assets.foldl
          (assetStep net token matchFilter
            (destDir ++ '/' :: (repo ++ '-' :: "latest".toList)) true) s,
         none)) ∧
    (rel.tagName ≠ [] →
      downloadLatestRelease net api token matchFilter destDir owner repo s =
        (rel.assets.foldl
          (assetStep net token matchFilter
            (destDir ++ '/' :: (repo ++ '-' :: rel.tagName)) false) s,
         none)) := by
  have hlen : rel.assets.length ≠ 0 := fun h => hne (List.length_eq_zero.mp h)
  constructor <;> intro ht <;>
    simp [downloadLatestRelease, hapi, hd, hp, hlen, dirTagForce, ht]

/-- C3 witness: `u/a` resolves to a release tagged `v1`, so the
subdirectory is `a-v1` and forceDownload is `false`. -/
theorem downloadLatestRelease_tag_dir_force_witness :
    downloadLatestRelease netEx apiEx [] [] "dl".toList "u".toList "a".toList st0 =
      ([({ name := "a1".toList, url := "api/a1".toList } : ReleaseAsset)].foldl
        (assetStep netEx [] []
          ("dl".toList ++ '/' :: ("a".toList ++ '-' :: "v1".toList)) false) st0,
       none) :=
  (downloadLatestRelease_tag_dir_force netEx apiEx [] [] "dl".toList
    "u".toList "a".toList st0
    { tagName := "v1".toList, draft := false, prerelease := false,
      assets := [{ name := "a1".toList, url := "api/a1".toList }] }
    rfl rfl rfl (by simp)).2 (by simp)

end GHDownloader

namespace GHDownloader

/-- C6: failure isolation.  (1) `downloadLatestRelease` returns no error
exactly when the resolver stage succeeds (release fetched, not draft, not
prerelease, at least one asset) — in particular an asset download failure,
which `assetStep` drops after logging, never makes it return an error;
(2) on resolver success the whole asset list is folded over, so one
asset's failure never stops the remaining assets of that repository;
(3) a resolver failure leaves the repository's state untouched (its
remaining work is aborted); (4) in the orchestrator loop, the sibling
repositories after a parsed repository are processed on the state that
repository produced, whether or not its task reported an error. -/
theorem downloadLatestRelease_failure_isolation (net : Network)
    (api : ReleaseAPI) (token matchFilter destDir owner repo : GoStr)
    (s : DState) :
    ((downloadLatestRelease net api token matchFilter destDir owner repo s).2
        = none ↔
      ∃ rel, api owner repo = .ok rel ∧ rel.draft = false ∧
        rel.prerelease = false ∧ rel.assets ≠ []) ∧
    (∀ rel, api owner repo = .ok rel → rel.draft = false →
      rel.prerelease = false → rel.assets ≠ [] →
      (downloadLatestRelease net api token matchFilter destDir owner repo s).1 =
        rel.assets.foldl
          (assetStep net token matchFilter
            (destDir ++ '/' :: (repo ++ '-' :: (dirTagForce rel.tagName).1))
            (dirTagForce rel.tagName).2) s) ∧
    ((downloadLatestRelease net api token matchFilter destDir owner repo s).2
        ≠ none →
      (downloadLatestRelease net api token matchFilter destDir owner repo s).1
        = s) ∧
    (∀ ur rest o r, parseUserRepo ur = .ok (o, r) →
      (runRepos net api token matchFilter destDir (ur :: rest) s).1 =
        (runRepos net api token matchFilter destDir rest
          (downloadLatestRelease net api token matchFilter destDir o r s).1).1) := by
  refine ⟨?_, ?_, ?_, ?_⟩
  · simp only [downloadLatestRelease]
    cases hapi : api owner repo with
    | error e => simp
    | ok rel =>
      by_cases hdp : rel.draft = true ∨ rel.prerelease = true
      · simp only [if_pos hdp]
        simp only [Except.ok.injEq]
        constructor
        · intro h
          exact absurd h (by simp)
        · rintro ⟨rel', hrel', hd, hp, -⟩
          subst hrel'
          rcases hdp with h | h
          · rw [h] at hd; exact absurd hd (by simp)
          · rw [h] at hp; exact absurd hp (by simp)
      · simp only [if_neg hdp]
        push_neg at hdp
        by_cases hlen : rel.assets.length = 0
        · have hnil : rel.assets = [] := List.length_eq_zero.mp hlen
          simp only [if_pos hlen, Except.ok.injEq]
          constructor
          · intro h
            exact absurd h (by simp)
          · rintro ⟨rel', hrel', -, -, hne⟩
            subst hrel'
            exact absurd hnil hne
        · simp only [if_neg hlen]
          simp only [Except.ok.injEq]
          constructor
          · intro _
            exact ⟨rel, rfl, by simpa using hdp.1, by simpa using hdp.2,
              fun h => hlen (by simp [h])⟩
          · intro _
            trivial
  · intro rel hapi hd hp hne
    have hlen : rel.assets.length ≠ 0 := fun h => hne (List.length_eq_zero.mp h)
    simp [downloadLatestRelease, hapi, hd, hp, hlen]
  · simp only [downloadLatestRelease]
    cases hapi : api owner repo with
    | error e => simp
    | ok rel =>
      by_cases hdp : rel.draft = true ∨ rel.prerelease = true
      · simp [if_pos hdp]
      · simp only [if_neg hdp]
        by_cases hlen : rel.assets.length = 0
        · simp [List.length_eq_zero.mp hlen]
        · simp [hlen]
  · intro ur rest o r hur
    simp only [runRepos, hur]
    cases hrun : runRepos net api token matchFilter destDir rest
        (downloadLatestRelease net api token matchFilter destDir o r s).1 with
    | mk s' res =>
      cases res with
      | error e => simp
      | ok errs => simp

end GHDownloader

namespace GHDownloader

/-- Helper: when the API URL is non-empty and the skip check does not fire,
`downloadAsset` is the fetch path on the joined target path. -/
theorem downloadAsset_proceed (net : Network) (token : GoStr)
    (asset : ReleaseAsset) (versionDir : GoStr) (forceDownload : Bool)
    (s : DState) (hurl : asset.url ≠ [])
    (hpass : ¬(forceDownload = false ∧
      (fsFind s.fs (versionDir ++ '/' :: asset.name)).isSome = true)) :
    downloadAsset net token asset versionDir forceDownload s =
      downloadAssetFetch net token asset (versionDir ++ '/' :: asset.name) s := by
  simp only [downloadAsset, if_neg hurl, if_neg hpass]

/-- Helper: when the skip check fires (not forced, file present), the path
is recorded and nothing else happens. -/
theorem downloadAsset_skip (net : Network) (token : GoStr)
    (asset : ReleaseAsset) (versionDir : GoStr) (s : DState)
    (hurl : asset.url ≠ [])
    (hex : (fsFind s.fs (versionDir ++ '/' :: asset.name)).isSome = true) :
    downloadAsset net token asset versionDir false s =
      ({ s with binPaths := s.binPaths ++ [versionDir ++ '/' :: asset.name] },
       none) := by
  unfold downloadAsset
  rw [if_neg hurl]
  try dsimp only
  rw [if_pos (⟨rfl, hex⟩ :
    false = false ∧
      (fsFind s.fs (versionDir ++ '/' :: asset.name)).isSome = true)]

/-- Helper: fetch outcome when the first request has a transport error. -/
theorem downloadAssetFetch_net_error (net : Network) (token : GoStr)
    (asset : ReleaseAsset) (filePath : GoStr) (s : DState) (e : GoStr)
    (h : net (firstRequest token asset.url) = .error e) :
    downloadAssetFetch net token asset filePath s =
      ({ s with fs := fsWrite s.fs filePath [],
                requests := s.requests ++ [firstRequest token asset.url] },
       some ("failed to get asset redirect URL: ".toList ++ e)) := by
  simp [downloadAssetFetch, h]

/-- Helper: fetch outcome when the first response's status is not 302. -/
theorem downloadAssetFetch_not_302 (net : Network) (token : GoStr)
    (asset : ReleaseAsset) (filePath : GoStr) (s : DState) (resp : HTTPResponse)
    (h : net (firstRequest token asset.url) = .ok resp)
    (h302 : resp.statusCode ≠ 302) :
    downloadAssetFetch net token asset filePath s =
      ({ s with fs := fsWrite s.fs filePath [],
                requests := s.requests ++ [firstRequest token asset.url] },
       some ("unexpected status code (expected 302 Found): got ".toList
              ++ resp.status)) := by
  simp [downloadAssetFetch, h, h302]

/-- Helper: fetch outcome when the 302 response has no `Location` header. -/
theorem downloadAssetFetch_no_location (net : Network) (token : GoStr)
    (asset : ReleaseAsset) (filePath : GoStr) (s : DState) (resp : HTTPResponse)
    (h : net (firstRequest token asset.url) = .ok resp)
    (h302 : resp.statusCode = 302)
    (hloc : headerGet resp.headers "Location".toList = []) :
    downloadAssetFetch net token asset filePath s =
      ({ s with fs := fsWrite s.fs filePath [],
                requests := s.requests ++ [firstRequest token asset.url] },
       some ("no redirect location found for asset '".toList
              ++ asset.name ++ "'".toList)) := by
  unfold downloadAssetFetch
  try dsimp only
  rw [h]
  try dsimp only
  rw [if_neg (by simp [h302]), if_pos hloc]

/-- Helper: fetch outcome when the second request has a transport error. -/
theorem downloadAssetFetch_second_net_error (net : Network) (token : GoStr)
    (asset : ReleaseAsset) (filePath : GoStr) (s : DState) (resp : HTTPResponse)
    (e2 : GoStr) (h : net (firstRequest token asset.url) = .ok resp)
    (h302 : resp.statusCode = 302)
    (hloc : headerGet resp.headers "Location".toList ≠ [])
    (h2 : net (secondRequest (headerGet resp.headers "Location".toList))
      = .error e2) :
    downloadAssetFetch net token asset filePath s =
      ({ s with fs := fsWrite s.fs filePath [],
                requests := s.requests
                  ++ [firstRequest token asset.url,
                      secondRequest (headerGet resp.headers "Location".toList)] },
       some ("failed to download asset from redirect URL: ".toList ++ e2)) := by
  unfold downloadAssetFetch
  try dsimp only
  rw [h]
  try dsimp only
  rw [if_neg (by simp [h302]), if_neg hloc]
  try dsimp only
  rw [h2]
  simp [List.append_assoc]

/-- Helper: fetch outcome when the second response's status is not 200. -/
theorem downloadAssetFetch_bad_status (net : Network) (token : GoStr)
    (asset : ReleaseAsset) (filePath : GoStr) (s : DState)
    (resp resp2 : HTTPResponse)
    (h : net (firstRequest token asset.url) = .ok resp)
    (h302 : resp.statusCode = 302)
    (hloc : headerGet resp.headers "Location".toList ≠ [])
    (h2 : net (secondRequest (headerGet resp.headers "Location".toList))
      = .ok resp2)
    (h200 : resp2.statusCode ≠ 200) :
    downloadAssetFetch net token asset filePath s =
      ({ s with fs := fsWrite s.fs filePath [],
                requests := s.requests
                  ++ [firstRequest token asset.url,
                      secondRequest (headerGet resp.headers "Location".toList)] },
       some ("bad status downloading asset from redirect URL: ".toList
              ++ resp2.status)) := by
  unfold downloadAssetFetch
  try dsimp only
  rw [h]
  try dsimp only
  rw [if_neg (by simp [h302]), if_neg hloc]
  try dsimp only
  rw [h2]
  try dsimp only
  rw [if_pos h200]
  simp [List.append_assoc]

/-- Helper: fetch outcome on success — the body is written to the file and
the path recorded. -/
theorem downloadAssetFetch_success (net : Network) (token : GoStr)
    (asset : ReleaseAsset) (filePath : GoStr) (s : DState)
    (resp resp2 : HTTPResponse)
    (h : net (firstRequest token asset.url) = .ok resp)
    (h302 : resp.statusCode = 302)
    (hloc : headerGet resp.headers "Location".toList ≠ [])
    (h2 : net (secondRequest (headerGet resp.headers "Location".toList))
      = .ok resp2)
    (h200 : resp2.statusCode = 200) :
    downloadAssetFetch net token asset filePath s =
      ({ s with fs := fsWrite s.fs filePath resp2.body,
                binPaths := s.binPaths ++ [filePath],
                requests := s.requests
                  ++ [firstRequest token asset.url,
                      secondRequest (headerGet resp.headers "Location".toList)] },
       none) := by
  unfold downloadAssetFetch
  try dsimp only
  rw [h]
  try dsimp only
  rw [if_neg (by simp [h302]), if_neg hloc]
  try dsimp only
  rw [h2]
  try dsimp only
  rw [if_neg (by simp [h200]), fsWrite_fsWrite]
  simp [List.append_assoc]

end GHDownloader

namespace GHDownloader

/-- C2 counterexample: the claim quantifies over every asset, but for an
asset with an empty API URL, `forceDownload = false` and the target file
already on disk, `downloadAsset` neither records the existing path nor
succeeds — the empty-URL check precedes the existence check. -/
theorem downloadAsset_existing_file_not_recorded :
    (downloadAsset netEx [] { name := "a1".toList, url := [] } "dl".toList
        false
        { fs := [("dl/a1".toList, "old".toList)], binPaths := [],
          requests := [] }).2 ≠ none ∧
    ((downloadAsset netEx [] { name := "a1".toList, url := [] } "dl".toList
        false
        { fs := [("dl/a1".toList, "old".toList)], binPaths := [],
          requests := [] }).1).binPaths = [] := by
  exact ⟨by decide, rfl⟩

/-- C2 (amended): for every asset with a non-empty API URL: when
`forceDownload` is false and a file exists at the target path (destination
directory joined with the asset's name), `downloadAsset` issues no network
request (the request log is unchanged), appends the existing path to the
shared result list and succeeds; when `forceDownload` is true the asset is
always re-fetched (the first request is issued) and the target file is
overwritten even if it exists (the filesystem holds a content written by
this call at the target path). -/
theorem downloadAsset_skip_or_force (net : Network) (token : GoStr)
    (asset : ReleaseAsset) (versionDir : GoStr) (s : DState)
    (hurl : asset.url ≠ []) :
    ((fsFind s.fs (versionDir ++ '/' :: asset.name)).isSome = true →
      downloadAsset net token asset versionDir false s =
        ({ s with binPaths := s.binPaths
            ++ [versionDir ++ '/' :: asset.name] }, none)) ∧
    (∃ rest b,
      ((downloadAsset net token asset versionDir true s).1).requests =
        s.requests ++ firstRequest token asset.url :: rest ∧
      ((downloadAsset net token asset versionDir true s).1).fs =
        fsWrite s.fs (versionDir ++ '/' :: asset.name) b) := by
  constructor
  · intro hex
    exact downloadAsset_skip net token asset versionDir s hurl hex
  · rw [downloadAsset_proceed net token asset versionDir true s hurl (by simp)]
    cases hnet : net (firstRequest token asset.url) with
    | error e =>
      rw [downloadAssetFetch_net_error net token asset _ s e hnet]
      exact ⟨[], [], rfl, rfl⟩
    | ok resp =>
      by_cases h302 : resp.statusCode = 302
      · by_cases hloc : headerGet resp.headers "Location".toList = []
        · rw [downloadAssetFetch_no_location net token asset _ s resp
            hnet h302 hloc]
          exact ⟨[], [], rfl, rfl⟩
        · cases hnet2 : net (secondRequest
              (headerGet resp.headers "Location".toList)) with
          | error e2 =>
            rw [downloadAssetFetch_second_net_error net token asset _ s resp
              e2 hnet h302 hloc hnet2]
            exact ⟨[secondRequest (headerGet resp.headers "Location".toList)],
              [], rfl, rfl⟩
          | ok resp2 =>
            by_cases h200 : resp2.statusCode = 200
            · rw [downloadAssetFetch_success net token asset _ s resp resp2
                hnet h302 hloc hnet2 h200]
              exact ⟨[secondRequest (headerGet resp.headers "Location".toList)],
                resp2.body, rfl, rfl⟩
            · rw [downloadAssetFetch_bad_status net token asset _ s resp resp2
                hnet h302 hloc hnet2 h200]
              exact ⟨[secondRequest (headerGet resp.headers "Location".toList)],
                [], rfl, rfl⟩
      · rw [downloadAssetFetch_not_302 net token asset _ s resp hnet h302]
        exact ⟨[], [], rfl, rfl⟩

/-- C2 witness: a file already at the target path with `forceDownload`
false is recorded without any network request. -/
theorem downloadAsset_skip_or_force_witness :
    downloadAsset netEx [] { name := "a1".toList, url := "api/a1".toList }
        "dl/a-v1".toList false
        { fs := [("dl/a-v1/a1".toList, "AAA".toList)], binPaths := [],
          requests := [] } =
      ({ fs := [("dl/a-v1/a1".toList, "AAA".toList)],
         binPaths := ["dl/a-v1/a1".toList], requests := [] }, none) :=
  (downloadAsset_skip_or_force netEx []
      { name := "a1".toList, url := "api/a1".toList } "dl/a-v1".toList
      { fs := [("dl/a-v1/a1".toList, "AAA".toList)], binPaths := [],
        requests := [] } (by decide)).1 (by decide)

end GHDownloader

namespace GHDownloader

/-- C5: the two-step asset resolution of `downloadAsset`, whenever it
proceeds past the existence check.  The first request is a GET to the
asset's API URL carrying `Accept: application/octet-stream` (and the
token's `Authorization` header when a token is configured); the custom
client is modelled as a single oracle call, so redirects are never
followed.  The call fails with the unexpected-status error exactly on a
first response whose status is not 302; fails when the 302 response has no
`Location` header; otherwise issues a second GET to the `Location` URL and
fails with an HTTP error on any status other than 200 from it (in
particular on any non-2xx status); on a 200 response the body is written
byte-for-byte to the target file and the path is recorded. -/
theorem downloadAsset_two_step_resolution (net : Network) (token : GoStr)
    (asset : ReleaseAsset) (versionDir : GoStr) (forceDownload : Bool)
    (s : DState) (hurl : asset.url ≠ [])
    (hpass : forceDownload = true ∨
      fsFind s.fs (versionDir ++ '/' :: asset.name) = none) :
    (firstRequest token asset.url).method = "GET".toList ∧
    (firstRequest token asset.url).url = asset.url ∧
    ("Accept".toList, "application/octet-stream".toList)
      ∈ (firstRequest token asset.url).headers ∧
    (token ≠ [] →
      ("Authorization".toList, "token ".toList ++ token)
        ∈ (firstRequest token asset.url).headers) ∧
    (∀ e, net (firstRequest token asset.url) = .error e →
      downloadAsset net token asset versionDir forceDownload s =
        ({ s with fs := fsWrite s.fs (versionDir ++ '/' :: asset.name) [],
                  requests := s.requests ++ [firstRequest token asset.url] },
         some ("failed to get asset redirect URL: ".toList ++ e))) ∧
    (∀ resp, net (firstRequest token asset.url) = .ok resp →
      resp.statusCode ≠ 302 →
      downloadAsset net token asset versionDir forceDownload s =
        ({ s with fs := fsWrite s.fs (versionDir ++ '/' :: asset.name) [],
                  requests := s.requests ++ [firstRequest token asset.url] },
         some ("unexpected status code (expected 302 Found): got ".toList
                ++ resp.status))) ∧
    (∀ resp, net (firstRequest token asset.url) = .ok resp →
      resp.statusCode = 302 →
      headerGet resp.headers "Location".toList = [] →
      downloadAsset net token asset versionDir forceDownload s =
        ({ s with fs := fsWrite s.fs (versionDir ++ '/' :: asset.name) [],
                  requests := s.requests ++ [firstRequest token asset.url] },
         some ("no redirect location found for asset '".toList
                ++ asset.name ++ "'".toList))) ∧
    (∀ resp, net (firstRequest token asset.url) = .ok resp →
      resp.statusCode = 302 →
      headerGet resp.headers "Location".toList ≠ [] →
      (secondRequest (headerGet resp.headers "Location".toList)).url =
        headerGet resp.headers "Location".toList ∧
      ("Accept".toList, "application/octet-stream".toList)
        ∈ (secondRequest (headerGet resp.headers "Location".toList)).headers ∧
      (∀ e2, net (secondRequest (headerGet resp.headers "Location".toList))
          = .error e2 →
        downloadAsset net token asset versionDir forceDownload s =
          ({ s with fs := fsWrite s.fs (versionDir ++ '/' :: asset.name) [],
                    requests := s.requests
                      ++ [firstRequest token asset.url,
                          secondRequest
                            (headerGet resp.headers "Location".toList)] },
           some ("failed to download asset from redirect URL: ".toList
                  ++ e2))) ∧
      (∀ resp2, net (secondRequest (headerGet resp.headers "Location".toList))
          = .ok resp2 →
        (resp2.statusCode ≠ 200 →
          downloadAsset net token asset versionDir forceDownload s =
            ({ s with fs := fsWrite s.fs (versionDir ++ '/' :: asset.name) [],
                      requests := s.requests
                        ++ [firstRequest token asset.url,
                            secondRequest
                              (headerGet resp.headers "Location".toList)] },
             some ("bad status downloading asset from redirect URL: ".toList
                    ++ resp2.status))) ∧
        (resp2.statusCode = 200 →
          downloadAsset net token asset versionDir forceDownload s =
            ({ s with fs := fsWrite s.fs (versionDir ++ '/' :: asset.name)
                        resp2.body,
                      binPaths := s.binPaths
                        ++ [versionDir ++ '/' :: asset.name],
                      requests := s.requests
                        ++ [firstRequest token asset.url,
                            secondRequest
                              (headerGet resp.headers "Location".toList)] },
             none)))) := by
  have hpass' : ¬(forceDownload = false ∧
      (fsFind s.fs (versionDir ++ '/' :: asset.name)).isSome = true) := by
    rcases hpass with h | h
    · rintro ⟨hf, -⟩
      rw [h] at hf
      cases hf
    · rintro ⟨-, hs⟩
      rw [h] at hs
      cases hs
  have hproc := downloadAsset_proceed net token asset versionDir
    forceDownload s hurl hpass'
  refine ⟨rfl, rfl, ?_, ?_, ?_, ?_, ?_, ?_⟩
  · simp [firstRequest]
  · intro ht
    simp [firstRequest, ht]
  · intro e hnet
    rw [hproc]
    exact downloadAssetFetch_net_error net token asset _ s e hnet
  · intro resp hnet h302
    rw [hproc]
    exact downloadAssetFetch_not_302 net token asset _ s resp hnet h302
  · intro resp hnet h302 hloc
    rw [hproc]
    exact downloadAssetFetch_no_location net token asset _ s resp hnet h302 hloc
  · intro resp hnet h302 hloc
    refine ⟨rfl, by simp [secondRequest], ?_, ?_⟩
    · intro e2 hnet2
      rw [hproc]
      exact downloadAssetFetch_second_net_error net token asset _ s resp e2
        hnet h302 hloc hnet2
    · intro resp2 hnet2
      constructor
      · intro h200
        rw [hproc]
        exact downloadAssetFetch_bad_status net token asset _ s resp resp2
          hnet h302 hloc hnet2 h200
      · intro h200
        rw [hproc]
        exact downloadAssetFetch_success net token asset _ s resp resp2
          hnet h302 hloc hnet2 h200

end GHDownloader

namespace GHDownloader

/-- C5 witness: the mocked endpoint `api/a1` answers 302 with
`Location: cdn/a1`, and `cdn/a1` answers 200 with body `AAA`; the local
file then contains exactly `AAA`. -/
theorem downloadAsset_two_step_resolution_witness :
    downloadAsset netEx [] { name := "a1".toList, url := "api/a1".toList }
        "dl/a-v1".toList true st0 =
      ({ fs := [("dl/a-v1/a1".toList, "AAA".toList)],
         binPaths := ["dl/a-v1/a1".toList],
         requests := [firstRequest [] "api/a1".toList,
                      secondRequest "cdn/a1".toList] }, none) :=
  ((((downloadAsset_two_step_resolution netEx []
      { name := "a1".toList, url := "api/a1".toList } "dl/a-v1".toList true st0
      (by decide) (Or.inl rfl)).2.2.2.2.2.2.2
      { statusCode := 302, status := "302 Found".toList,
        headers := [("Location".toList, "cdn/a1".toList)], body := [] }
      rfl rfl (by decide)).2.2.2
      { statusCode := 200, status := "200 OK".toList, headers := [],
        body := "AAA".toList } rfl).2 rfl)

end GHDownloader

namespace GHDownloader

/-- C8: non-atomic failure at the asset fetcher.  Whenever `downloadAsset`
proceeds past the existence check (forced, or no file at the target path),
it creates the target file before the first network request; so if the
download then fails for any reason, the (empty) file remains at the target
path, and a subsequent non-forced run treats it as already downloaded:
it records the path and succeeds without issuing any network request. -/
theorem downloadAsset_failure_leaves_file (net : Network) (token : GoStr)
    (asset : ReleaseAsset) (versionDir : GoStr) (forceDownload : Bool)
    (s : DState) (msg : GoStr) (hurl : asset.url ≠ [])
    (hpass : forceDownload = true ∨
      fsFind s.fs (versionDir ++ '/' :: asset.name) = none)
    (hfail : (downloadAsset net token asset versionDir forceDownload s).2
      = some msg) :
    fsFind ((downloadAsset net token asset versionDir forceDownload s).1).fs
        (versionDir ++ '/' :: asset.name) = some [] ∧
    downloadAsset net token asset versionDir false
        (downloadAsset net token asset versionDir forceDownload s).1 =
      ({ (downloadAsset net token asset versionDir forceDownload s).1 with
          binPaths :=
            ((downloadAsset net token asset versionDir forceDownload s).1).binPaths
              ++ [versionDir ++ '/' :: asset.name] },
       none) := by
  have hpass' : ¬(forceDownload = false ∧
      (fsFind s.fs (versionDir ++ '/' :: asset.name)).isSome = true) := by
    rcases hpass with h | h
    · rintro ⟨hf, -⟩
      rw [h] at hf
      cases hf
    · rintro ⟨-, hs⟩
      rw [h] at hs
      cases hs
  have hproc := downloadAsset_proceed net token asset versionDir
    forceDownload s hurl hpass'
  have hA : fsFind
      ((downloadAsset net token asset versionDir forceDownload s).1).fs
      (versionDir ++ '/' :: asset.name) = some [] := by
    rw [hproc] at hfail ⊢
    cases hnet : net (firstRequest token asset.url) with
    | error e =>
      rw [downloadAssetFetch_net_error net token asset _ s e hnet]
      exact fsFind_fsWrite _ _ _
    | ok resp =>
      by_cases h302 : resp.statusCode = 302
      · by_cases hloc : headerGet resp.headers "Location".toList = []
        · rw [downloadAssetFetch_no_location net token asset _ s resp
            hnet h302 hloc]
          exact fsFind_fsWrite _ _ _
        · cases hnet2 : net (secondRequest
              (headerGet resp.headers "Location".toList)) with
          | error e2 =>
            rw [downloadAssetFetch_second_net_error net token asset _ s resp
              e2 hnet h302 hloc hnet2]
            exact fsFind_fsWrite _ _ _
          | ok resp2 =>
            by_cases h200 : resp2.statusCode = 200
            · rw [downloadAssetFetch_success net token asset _ s resp resp2
                hnet h302 hloc hnet2 h200] at hfail
              exact absurd hfail (by simp)
            · rw [downloadAssetFetch_bad_status net token asset _ s resp resp2
                hnet h302 hloc hnet2 h200]
              exact fsFind_fsWrite _ _ _
      · rw [downloadAssetFetch_not_302 net token asset _ s resp hnet h302]
        exact fsFind_fsWrite _ _ _
  exact ⟨hA, downloadAsset_skip net token asset versionDir _ hurl
    (by rw [hA]; rfl)⟩

/-- C8 witness: a first request that fails in transport (`api/bad` has no
route) leaves an empty `dl/x` file, and the non-forced second run records
that path as a success without any further request. -/
theorem downloadAsset_failure_leaves_file_witness :
    fsFind ((downloadAsset netEx []
        { name := "x".toList, url := "api/bad".toList } "dl".toList false
        st0).1).fs ("dl".toList ++ '/' :: "x".toList) = some [] ∧
    downloadAsset netEx [] { name := "x".toList, url := "api/bad".toList }
        "dl".toList false
        (downloadAsset netEx []
          { name := "x".toList, url := "api/bad".toList } "dl".toList false
          st0).1 =
      ({ (downloadAsset netEx []
            { name := "x".toList, url := "api/bad".toList } "dl".toList false
            st0).1 with
          binPaths :=
            ((downloadAsset netEx []
                { name := "x".toList, url := "api/bad".toList } "dl".toList
                false st0).1).binPaths
              ++ ["dl".toList ++ '/' :: "x".toList] },
       none) :=
  downloadAsset_failure_leaves_file netEx []
    { name := "x".toList, url := "api/bad".toList } "dl".toList false st0
    ("failed to get asset redirect URL: ".toList ++ "no route".toList)
    (by decide) (Or.inr rfl) rfl

end GHDownloader

namespace GHDownloader

/-- C1: `DownloadLatestReleases` returns a nil error exactly when no
repository-level error was collected; otherwise it returns the
accumulated `binPaths` together with one combined error,
`errors occurred:` followed by the per-repository failures joined by
newlines — each collected failure message occurs inside it. -/
theorem DownloadLatestReleases_error_aggregation (net : Network)
    (api : ReleaseAPI) (token matchFilter destDir : GoStr)
    (userRepos : List GoStr) (s s' : DState) (errs : List GoStr)
    (h : runRepos net api token matchFilter destDir userRepos s =
      (s', .ok errs)) :
    ((DownloadLatestReleases net api token matchFilter destDir userRepos
        s).2.2 = none ↔ errs = []) ∧
    (DownloadLatestReleases net api token matchFilter destDir userRepos s).1
      = s' ∧
    (DownloadLatestReleases net api token matchFilter destDir userRepos
      s).2.1 = s'.binPaths ∧
    (errs ≠ [] →
      (DownloadLatestReleases net api token matchFilter destDir userRepos
          s).2.2 =
        some ("errors occurred:\n".toList ++ goJoin ['\n'] errs) ∧
      ∀ e ∈ errs, ∃ l r,
        "errors occurred:\n".toList ++ goJoin ['\n'] errs = l ++ e ++ r) := by
  cases errs with
  | nil =>
    simp [DownloadLatestReleases, h]
  | cons e es =>
    simp only [DownloadLatestReleases, h]
    refine ⟨by simp, by simp, by simp, fun _ => ⟨by simp, ?_⟩⟩
    intro x hx
    obtain ⟨l, r, hlr⟩ := goJoin_infix ['\n'] (e :: es) x hx
    exact ⟨"errors occurred:\n".toList ++ l, r,
      by rw [hlr]; simp [List.append_assoc]⟩

/-- C1 witness: three repositories of which `u/b` alone fails resolution
(draft latest release): the result holds the two successful repositories'
asset paths, and the combined error mentions exactly the failure for
`u/b`. -/
theorem DownloadLatestReleases_error_aggregation_witness :
    (DownloadLatestReleases netEx apiEx [] [] "dl".toList
        ["u/a".toList, "u/b".toList, "u/c".toList] st0).2.1 =
      ["dl/a-v1/a1".toList, "dl/c-v3/c1".toList] ∧
    (DownloadLatestReleases netEx apiEx [] [] "dl".toList
        ["u/a".toList, "u/b".toList, "u/c".toList] st0).2.2 =
      some ("errors occurred:\n".toList ++ goJoin ['\n']
        [repoErrMsg "u".toList "b".toList
          "latest release is draft or pre-release".toList]) := by
  have H := DownloadLatestReleases_error_aggregation netEx apiEx [] []
    "dl".toList ["u/a".toList, "u/b".toList, "u/c".toList] st0
    { fs := [("dl/a-v1/a1".toList, "AAA".toList),
             ("dl/c-v3/c1".toList, "CCC".toList)],
      binPaths := ["dl/a-v1/a1".toList, "dl/c-v3/c1".toList],
      requests := [firstRequest [] "api/a1".toList,
                   secondRequest "cdn/a1".toList,
                   firstRequest [] "api/c1".toList,
                   secondRequest "cdn/c1".toList] }
    [repoErrMsg "u".toList "b".toList
      "latest release is draft or pre-release".toList]
    rfl
  exact ⟨by rw [H.2.2.1], (H.2.2.2 (by simp)).1⟩

/-- Helper: when every identifier before `bad` parses and `bad` does not,
`runRepos` stops at `bad` with the fail-fast parse error. -/
theorem runRepos_parse_error (net : Network) (api : ReleaseAPI)
    (token matchFilter destDir bad e : GoStr) (post : List GoStr) :
    ∀ (pre : List GoStr) (s : DState),
      (∀ ur ∈ pre, ∃ o r, parseUserRepo ur = .ok (o, r)) →
      parseUserRepo bad = .error e →
      ∃ s', runRepos net api token matchFilter destDir (pre ++ bad :: post) s
        = (s', .error (parseErrMsg bad e))
  | [], s, _, hbad => ⟨s, by simp [runRepos, hbad]⟩
  | ur :: pre, s, hpre, hbad => by
    obtain ⟨o, r, hor⟩ := hpre ur (List.mem_cons_self _ _)
    obtain ⟨s', hs'⟩ := runRepos_parse_error net api token matchFilter destDir
      bad e post pre
      (downloadLatestRelease net api token matchFilter destDir o r s).1
      (fun u hu => hpre u (List.mem_cons_of_mem _ hu)) hbad
    refine ⟨s', ?_⟩
    simp only [List.cons_append, runRepos, hor, List.append_eq]
    rw [hs']

/-- C7: a malformed identifier makes `DownloadLatestReleases` abort the
whole run as soon as it reaches it: the returned path list is nil and the
returned error is the invalid-format error, whose message contains the
offending identifier — it is not collected as a per-repository failure. -/
theorem DownloadLatestReleases_failfast (net : Network) (api : ReleaseAPI)
    (token matchFilter destDir : GoStr) (pre : List GoStr) (bad : GoStr)
    (post : List GoStr) (e : GoStr) (s : DState)
    (hpre : ∀ ur ∈ pre, ∃ o r, parseUserRepo ur = .ok (o, r))
    (hbad : parseUserRepo bad = .error e) :
    (∃ s', DownloadLatestReleases net api token matchFilter destDir
        (pre ++ bad :: post) s = (s', [], some (parseErrMsg bad e))) ∧
    ∃ l r, parseErrMsg bad e = l ++ bad ++ r := by
  obtain ⟨s', hs'⟩ := runRepos_parse_error net api token matchFilter destDir
    bad e post pre s hpre hbad
  refine ⟨⟨s', ?_⟩, "invalid user/repo format '".toList,
    "': ".toList ++ e, ?_⟩
  · simp only [DownloadLatestReleases]
    rw [hs']
  · simp [parseErrMsg]

/-- C7 witness: `["u/a", "nou", "u/c"]` aborts at `nou` with a nil path
list and the invalid-format error naming `nou`. -/
theorem DownloadLatestReleases_failfast_witness :
    (∃ s', DownloadLatestReleases netEx apiEx [] [] "dl".toList
        (["u/a".toList] ++ "nou".toList :: ["u/c".toList]) st0 =
      (s', [], some (parseErrMsg "nou".toList
        "expected format 'owner/repo'".toList))) ∧
    ∃ l r, parseErrMsg "nou".toList "expected format 'owner/repo'".toList
      = l ++ "nou".toList ++ r :=
  DownloadLatestReleases_failfast netEx apiEx [] [] "dl".toList
    ["u/a".toList] "nou".toList ["u/c".toList]
    "expected format 'owner/repo'".toList st0
    (by
      intro ur hur
      rw [List.mem_singleton] at hur
      subst hur
      exact ⟨"u".toList, "a".toList, rfl⟩)
    rfl

end GHDownloader
